import Mathlib

/-!
# Verification of the Commvault MCP server core

A shallow embedding of the core of the `commvault-mcp-server` repository:
the token lifecycle manager (`src/auth_service.py`), the shared-secret
authorization gate (`AuthService.is_client_token_valid`), and the HTTP
request orchestrator with its retry / token-refresh loop
(`src/cv_api_client.py`, `CommvaultApiClient.request` and
`CommvaultApiClient._refresh_access_token`).

External collaborators (the OS keyring, the backend HTTP server, the renew
endpoint) are modelled as explicit parameters: the keyring as a record of
optional strings, the backend as a function from the attempt index to the
outcome of that attempt, the renew endpoint as a function from the refresh
call index to its outcome.  Exceptions are modelled with `Except` /
explicit error codes; the unbounded `while` loop of `request` is modelled
with explicit fuel, so that non-termination is observable as the fuel
running out at every fuel value.
-/

deriving instance DecidableEq for Except

namespace CommvaultMCP

/-! ## Credential store and token lifecycle manager (`auth_service.py`)

The keyring holds up to three named secrets for the fixed service name
`commvault-mcp-server`: `access_token`, `refresh_token`, `server_secret`.
`keyring.set_password` may raise; each write is given an explicit success
flag (`writeOk`), and a failed write raises (modelled as `Except.error`)
*before* the in-memory assignment that follows it in the source.
-/

structure CredStore where
  access_token : Option String
  refresh_token : Option String
  server_secret : Option String
  deriving DecidableEq, Repr

structure AuthState where
  mem_access_token : String
  mem_refresh_token : String
  store : CredStore
  deriving DecidableEq, Repr

/-- `AuthService.get_tokens`: pure read of the in-memory pair. -/
def get_tokens (st : AuthState) : String × String :=
  (st.mem_access_token, st.mem_refresh_token)

/-- `AuthService.set_access_token`: `keyring.set_password` first, then the
in-memory assignment.  If the store write raises (`writeOk = false`) the
exception propagates and the in-memory field is left unchanged. -/
def set_access_token (writeOk : Bool) (st : AuthState) (tok : String) :
    Except AuthState AuthState :=
  if writeOk then
    .ok { st with store := { st.store with access_token := some tok },
                  mem_access_token := tok }
  else .error st

/-- `AuthService.set_refresh_token`: same store-write-first order. -/
def set_refresh_token (writeOk : Bool) (st : AuthState) (tok : String) :
    Except AuthState AuthState :=
  if writeOk then
    .ok { st with store := { st.store with refresh_token := some tok },
                  mem_refresh_token := tok }
  else .error st

/-- `AuthService.set_tokens`: `set_access_token` then `set_refresh_token`;
an exception from either write propagates (the `error` value carries the
state reached when the exception was raised). -/
def set_tokens (wA wR : Bool) (st : AuthState) (a r : String) :
    Except AuthState AuthState :=
  match set_access_token wA st a with
  | .error st1 => .error st1
  | .ok st1 =>
    match set_refresh_token wR st1 r with
    | .error st2 => .error st2
    | .ok st2 => .ok st2

/-- The auth-service state after a `set_tokens` call, whether or not it
raised. -/
def set_tokens_state (wA wR : Bool) (st : AuthState) (a r : String) : AuthState :=
  match set_tokens wA wR st a r with
  | .ok st' => st'
  | .error st' => st'

/-! ## Authorization gate (`AuthService.is_client_token_valid`)

Headers and secrets are modelled as `List Char`.  The source extracts the
presented token with `auth_header.split(" ")[1]` when the header starts
with `"Bearer "`; Python's `str.split(" ")` splits on every single space
and keeps empty segments, which `splitSp` reproduces. -/

/-- Python `s.split(" ")` on `List Char`: split at every space character,
keeping empty segments. -/
def splitSpAux : List Char → List Char → List (List Char)
  | [], acc => [acc.reverse]
  | c :: cs, acc =>
    if c == ' ' then acc.reverse :: splitSpAux cs []
    else splitSpAux cs (c :: acc)

def splitSp (s : List Char) : List (List Char) :=
  splitSpAux s []

/-- The token the gate actually compares: `auth_header.split(" ")[1]` when
the header starts with `"Bearer "`, otherwise the whole header. -/
def extractToken (h : List Char) : List Char :=
  if ("Bearer ".toList).isPrefixOf h then (splitSp h).getD 1 [] else h

/-- `AuthService.is_client_token_valid`: reject a missing `Authorization`
header; extract the presented token; reject a missing `server_secret` in
the keyring; otherwise accept iff the constant-time comparison
(`hmac.compare_digest`, i.e. string equality) succeeds. -/
def is_client_token_valid (authHeader : Option (List Char))
    (server_secret : Option (List Char)) : Bool :=
  match authHeader with
  | none => false
  | some h =>
    match server_secret with
    | none => false
    | some s => extractToken h == s

/-- Token extraction as the specification words it: strip an optional
leading `"Bearer "` and nothing more.  Used only to compare the spec's
description of the gate with the source's `extractToken`. -/
def stripBearerSpec (h : List Char) : List Char :=
  if ("Bearer ".toList).isPrefixOf h then h.drop 7 else h

/-! ## Token refresh (`CommvaultApiClient._refresh_access_token`)

The renew endpoint either fails at the HTTP level (`raise_for_status` or
the POST itself raising, both swallowed by the surrounding
`except Exception`) or returns a JSON body whose `accessToken` /
`refreshToken` fields each may be absent (`.get` returning `None`).  The
source rejects the pair with `if not new_access_token or not
new_refresh_token`, i.e. Python falsiness: absent *or empty* strings both
count as "no new tokens received". -/

inductive RenewResult where
  | httpFailure
  | ok (accessToken refreshToken : Option String)
  deriving DecidableEq, Repr

/-- Python truthiness of `response.json().get(field)` for a string field. -/
def pyTruthy : Option String → Bool
  | none => false
  | some s => s != ""

/-- `CommvaultApiClient._refresh_access_token`: returns `false` on an HTTP
failure of the renew call, on a falsy `accessToken`/`refreshToken` field,
or on an exception from `set_tokens` (store-write failure); returns `true`
after `set_tokens` stored the new pair.  The whole body is wrapped in
`try/except Exception`, so the function never raises: every outcome is a
`Bool` paired with the auth state afterward. -/
def refresh_access_token (wA wR : Bool) (renew : RenewResult) (st : AuthState) :
    Bool × AuthState :=
  match renew with
  | .httpFailure => (false, st)
  | .ok a r =>
    if pyTruthy a && pyTruthy r then
      match set_tokens wA wR st (a.getD "") (r.getD "") with
      | .ok st' => (true, st')
      | .error st' => (false, st')
    else (false, st)

/-! ## The request orchestrator (`CommvaultApiClient.request`)

One loop iteration issues one network attempt.  The backend is a function
from the attempt index (number of requests issued so far) to that
attempt's outcome: either an HTTP response with a status code and an
optional decodable-JSON body (`none` = `response.json()` raises
`ValueError`), or a connection-level failure
(`requests.exceptions.RequestException`). -/

inductive AttemptResult where
  | status (code : Nat) (body : Option String)
  | netError
  deriving DecidableEq, Repr

/-- The distinct exceptions `request` can raise. -/
inductive ReqError where
  /-- "Invalid or missing token in request." (gate failure, before the loop) -/
  | authGateRejected
  /-- "Failed to refresh token. please create a new token update the keyring" -/
  | refreshFailed
  /-- "Some issue occured. Please try again later." (net-error budget spent) -/
  | tryAgainLater
  /-- "Invalid response format from server" (2xx with undecodable body) -/
  | invalidResponseFormat
  /-- the raw `requests` HTTPError for this status code, re-raised -/
  | httpError (code : Nat)
  /-- Python `AttributeError`: the client was constructed in OAuth mode, so
  `self.auth_service` is an `OAuthService`, which has no
  `is_client_token_valid` method; evaluating the guard's third conjunct
  raises before any gate logic, regardless of the header. -/
  | attributeError
  deriving DecidableEq, Repr

/-- Mutable state of one `request` call: the `retries` counter, plus the
observables — requests issued, refresh calls made, backoff sleeps
performed (in order, in seconds), and the shared auth-service state. -/
structure LoopSt where
  retries : Nat
  attempts : Nat
  refreshCalls : Nat
  sleeps : List ℚ
  auth : AuthState
  deriving DecidableEq, Repr

/-- Environment of one `request` call: OAuth flag of the client, the
backend, the renew endpoint, keyring write outcomes, and the retry
parameters. -/
structure ReqCfg where
  use_oauth : Bool
  backend : Nat → AttemptResult
  renew : Nat → RenewResult
  wA : Bool
  wR : Bool
  max_retries : Nat
  retry_delay : ℚ

/-- The `while retries <= max_retries` loop of `CommvaultApiClient.request`,
with explicit fuel (one unit per iteration; `none` = still looping when the
fuel ran out).  The `while` condition itself never fails: `retries` starts
at `0 ≤ max_retries` and every path that pushes it past `max_retries`
raises at once, so each iteration is one of the source's branches:

* connection-level failure: increment `retries`; raise the generic
  try-again-later error once `retries > max_retries`, else sleep
  `retry_delay * 2 ^ (retries - 1)` and continue;
* status 401, non-OAuth client: call `_refresh_access_token`; on success
  rebuild headers and continue (the `retries` counter is *not* touched);
  on failure fall through to `raise_for_status`, whose 401 `HTTPError` is
  answered with the refresh-failed exception;
* other 4xx/5xx (and 401 with OAuth): `raise_for_status` raises; a
  non-401 code increments `retries` and either re-raises the raw
  `HTTPError` (budget spent) or sleeps and continues; a 401 with OAuth
  re-raises the raw `HTTPError`;
* success status: return the decoded JSON body, or raise the
  invalid-response-format error when the body does not decode. -/
def requestLoop (cfg : ReqCfg) : Nat → LoopSt → Option (Except ReqError String) × LoopSt
  | 0, s => (none, s)
  | fuel + 1, s =>
    match cfg.backend s.attempts with
    | .netError =>
      let retries := s.retries + 1
      let s1 := { s with attempts := s.attempts + 1, retries := retries }
      if retries > cfg.max_retries then (some (.error .tryAgainLater), s1)
      else requestLoop cfg fuel
        { s1 with sleeps := s1.sleeps ++ [cfg.retry_delay * 2 ^ (retries - 1)] }
    | .status code body =>
      let s1 := { s with attempts := s.attempts + 1 }
      if code == 401 && !cfg.use_oauth then
        let res := refresh_access_token cfg.wA cfg.wR (cfg.renew s1.refreshCalls) s1.auth
        let s2 := { s1 with refreshCalls := s1.refreshCalls + 1, auth := res.2 }
        if res.1 then requestLoop cfg fuel s2
        else (some (.error .refreshFailed), s2)
      else if 400 ≤ code && code < 600 then
        if code != 401 then
          let retries := s1.retries + 1
          let s2 := { s1 with retries := retries }
          if retries > cfg.max_retries then (some (.error (.httpError code)), s2)
          else requestLoop cfg fuel
            { s2 with sleeps := s2.sleeps ++ [cfg.retry_delay * 2 ^ (retries - 1)] }
        else (some (.error (.httpError code)), s1)
      else
        match body with
        | some j => (some (.ok j), s1)
        | none => (some (.error .invalidResponseFormat), s1)

/-- A fresh per-call loop state over auth state `st`. -/
def initSt (st : AuthState) : LoopSt :=
  { retries := 0, attempts := 0, refreshCalls := 0, sleeps := [], auth := st }

/-! ## Lemmas about the gate's token extraction -/

lemma splitSpAux_append_space (rest : List Char) :
    ∀ (cs : List Char), (∀ c ∈ cs, c ≠ ' ') → ∀ acc,
      splitSpAux (cs ++ ' ' :: rest) acc = (acc.reverse ++ cs) :: splitSpAux rest [] := by
  intro cs
  induction cs with
  | nil => intro _ acc; simp [splitSpAux]
  | cons c cs ih =>
    intro h acc
    have hc : c ≠ ' ' := h c (by simp)
    simp only [List.cons_append, splitSpAux, beq_iff_eq, if_neg hc, List.append_eq]
    rw [ih (fun d hd => h d (by simp [hd])) (c :: acc)]
    simp

lemma splitSpAux_headD : ∀ (cs acc : List Char),
    (splitSpAux cs acc).getD 0 [] = acc.reverse ++ cs.takeWhile (fun c => c != ' ') := by
  intro cs
  induction cs with
  | nil => intro acc; simp [splitSpAux]
  | cons c cs ih =>
    intro acc
    by_cases hc : c = ' '
    · subst hc
      simp [splitSpAux, List.takeWhile]
    · have hcb : (c != ' ') = true := by simp [hc]
      simp only [splitSpAux, beq_iff_eq, if_neg hc]
      rw [ih (c :: acc)]
      simp [List.takeWhile, hcb]

/-- `isPrefixOf` holds of a list against itself followed by anything. -/
lemma isPrefixOf_append_self (l1 l2 : List Char) : l1.isPrefixOf (l1 ++ l2) = true := by
  induction l1 with
  | nil => cases l2 <;> rfl
  | cons c cs ih => simp [List.isPrefixOf, ih]

/-- On a header of the form `"Bearer " ++ rest`, the gate's extraction
yields the segment of `rest` up to (excluding) its first space — the
substring of the header between its first and second spaces. -/
lemma extractToken_bearer (rest : List Char) :
    extractToken ("Bearer ".toList ++ rest) = rest.takeWhile (fun c => c != ' ') := by
  have hpre : ("Bearer ".toList).isPrefixOf ("Bearer ".toList ++ rest) = true :=
    isPrefixOf_append_self _ _
  have hsplit : "Bearer ".toList ++ rest = "Bearer".toList ++ ' ' :: rest := by
    have : "Bearer ".toList = "Bearer".toList ++ [' '] := by decide
    simp [this]
  unfold extractToken splitSp
  rw [if_pos hpre, hsplit,
    splitSpAux_append_space rest "Bearer".toList (by decide) []]
  simpa using splitSpAux_headD rest []

/-- A sample auth-service state used for concrete instances: in-memory pair
`("A1", "R1")`, keyring holding the same pair and server secret `"sec"`. -/
def sampleAuth : AuthState :=
  ⟨"A1", "R1", ⟨some "A1", some "R1", some "sec"⟩⟩

/-! ## Claims about the authorization gate and the token lifecycle manager -/

/-- **C5** (amended): the gate rejects a missing `Authorization` header,
rejects a missing stored `server_secret`, and otherwise accepts iff the
presented token equals the secret exactly (case-sensitive), where the
presented token is the whole header when it does not start with
`"Bearer "`, and otherwise the first space-delimited segment after
`"Bearer"` (not simply the header with the prefix removed). -/
theorem claim_C5 :
    (∀ s, is_client_token_valid none s = false) ∧
    (∀ h, is_client_token_valid (some h) none = false) ∧
    (∀ h s, is_client_token_valid (some h) (some s) = (extractToken h == s)) :=
  ⟨fun _ => rfl, fun _ => rfl, fun _ _ => rfl⟩

/-- **C5** counterexample: for the header `"Bearer a b"` and the stored
secret `"a b"`, removing only the leading `"Bearer "` yields exactly the
secret, so the claim's comparison rule would accept — but the gate
compares `split(" ")[1] = "a"` and rejects. -/
theorem claim_C5_counterexample :
    stripBearerSpec "Bearer a b".toList = "a b".toList ∧
    is_client_token_valid (some "Bearer a b".toList) (some "a b".toList) = false := by
  decide

/-- **C10**: on a header `"Bearer " ++ rest` whose remainder `rest` itself
contains a space, the gate compares only the substring between the first
and second space of the header (the prefix of `rest` before its first
space) against the stored secret; consequently a secret containing a
space is never accepted via a Bearer-prefixed header. -/
theorem claim_C10 (rest secret : List Char) (hrest : ' ' ∈ rest) :
    extractToken ("Bearer ".toList ++ rest) = rest.takeWhile (fun c => c != ' ') ∧
    (' ' ∈ secret →
      is_client_token_valid (some ("Bearer ".toList ++ rest)) (some secret) = false) := by
  refine ⟨extractToken_bearer rest, fun hsec => ?_⟩
  show (extractToken ("Bearer ".toList ++ rest) == secret) = false
  rw [extractToken_bearer rest]
  rw [beq_eq_false_iff_ne]
  intro heq
  rw [← heq] at hsec
  have := List.mem_takeWhile_imp hsec
  simp at this

/-- Witness for **C10** at the header `"Bearer a b"` and secret `"x y"`. -/
theorem claim_C10_witness :
    ' ' ∈ "a b".toList ∧
    (extractToken ("Bearer ".toList ++ "a b".toList) =
        List.takeWhile (fun c => c != ' ') "a b".toList ∧
      (' ' ∈ "x y".toList →
        is_client_token_valid (some ("Bearer ".toList ++ "a b".toList))
          (some "x y".toList) = false)) :=
  ⟨by decide, claim_C10 "a b".toList "x y".toList (by decide)⟩

/-- **C9**: when the keyring writes succeed, `set_tokens` followed by
`get_tokens` returns exactly the pair passed in, and the credential
store's `access_token` and `refresh_token` entries hold the same values. -/
theorem claim_C9 (st : AuthState) (a r : String) :
    get_tokens (set_tokens_state true true st a r) = (a, r) ∧
    (set_tokens_state true true st a r).store.access_token = some a ∧
    (set_tokens_state true true st a r).store.refresh_token = some r :=
  ⟨rfl, rfl, rfl⟩

/-- **C8** counterexample: starting from in-memory pair `("A1", "R1")`, a
`set_tokens` call whose `access_token` store write fails raises with the
in-memory access token still `"A1"`, not the new value `"A2"` — the
in-memory update is *not* retained after a failed store write. -/
theorem claim_C8_counterexample :
    set_tokens false true sampleAuth "A2" "R2" = Except.error sampleAuth ∧
    (set_tokens_state false true sampleAuth "A2" "R2").mem_access_token = "A1" ∧
    (set_tokens_state false true sampleAuth "A2" "R2").mem_refresh_token = "R1" := by
  decide

/-- **C8** (amended): each store write precedes its in-memory assignment,
so a failed store write propagates the exception and leaves the
corresponding in-memory value unchanged: if the `access_token` write
fails, the state is returned entirely unchanged; if it succeeds and the
`refresh_token` write fails, only the access token is updated in memory
(and in the store). -/
theorem claim_C8 (st : AuthState) (a r : String) :
    (∀ wR, set_tokens false wR st a r = Except.error st) ∧
    set_tokens true false st a r =
      Except.error { st with mem_access_token := a,
                             store := { st.store with access_token := some a } } :=
  ⟨fun _ => rfl, rfl⟩

/-- **C7** counterexample: a renew response that supplies both fields but
with an empty `accessToken` (`{"accessToken": "", "refreshToken": "R2"}`)
is rejected by the Python falsiness test `if not new_access_token or not
new_refresh_token`, so the refresh returns `false` even though both
fields are supplied — refuting "returns true exactly when the response
supplies both fields". -/
theorem claim_C7_counterexample :
    refresh_access_token true true (RenewResult.ok (some "") (some "R2")) sampleAuth =
      (false, sampleAuth) := by
  decide

/-- **C7** (amended): the token-refresh operation is total (never raises)
and returns `true` — storing the new pair via `set_tokens` — exactly when
the renew call succeeds at the HTTP level and its response supplies both
the `accessToken` and `refreshToken` fields with *non-empty* (truthy)
values; it returns `false`, leaving the state as `set_tokens` left it, in
every other case, in particular on any HTTP failure. -/
theorem claim_C7 :
    (∀ renew st, (refresh_access_token true true renew st).1 = true ↔
      ∃ a r, renew = RenewResult.ok (some a) (some r) ∧ a ≠ "" ∧ r ≠ "") ∧
    (∀ st a r, a ≠ "" → r ≠ "" →
      refresh_access_token true true (RenewResult.ok (some a) (some r)) st =
        (true, set_tokens_state true true st a r)) ∧
    (∀ st, refresh_access_token true true RenewResult.httpFailure st = (false, st)) := by
  refine ⟨fun renew st => ?_, fun st a r ha hr => ?_, fun st => rfl⟩
  · cases renew with
    | httpFailure => simp [refresh_access_token]
    | ok a r =>
      cases a with
      | none => simp [refresh_access_token, pyTruthy]
      | some s =>
        cases r with
        | none => simp [refresh_access_token, pyTruthy]
        | some t =>
          by_cases hs : s = ""
          · subst hs
            simp [refresh_access_token, pyTruthy]
          · by_cases ht : t = ""
            · subst ht
              simp [refresh_access_token, pyTruthy]
            · simp [refresh_access_token, pyTruthy, hs, ht,
                set_tokens, set_access_token, set_refresh_token]
              exact ⟨s, t, ⟨rfl, rfl⟩, hs, ht⟩
  · have hcond : (pyTruthy (some a) && pyTruthy (some r)) = true := by
      simp [pyTruthy, ha, hr]
    simp only [refresh_access_token, hcond, if_true]
    rfl

/-- Witness for **C7** at the renew response `("A2", "R2")`. -/
theorem claim_C7_witness :
    refresh_access_token true true (RenewResult.ok (some "A2") (some "R2")) sampleAuth =
      (true, set_tokens_state true true sampleAuth "A2" "R2") :=
  claim_C7.2.1 sampleAuth "A2" "R2" (by decide) (by decide)

/-! ## Claims about the request orchestrator -/

/-- **C1** (the code diverges from the claim): in non-OAuth mode, against a
backend answering 401 on every attempt while every refresh succeeds, the
loop never terminates: at every fuel value it is still running (`none`),
having performed one refresh per attempt — `fuel` refreshes after `fuel`
iterations — because the 401-refresh-success path `continue`s without
touching any counter.  The claim's bound of one refresh-and-reissue cycle
per call does not hold. -/
theorem claim_C1 (cfg : ReqCfg) (hoauth : cfg.use_oauth = false)
    (hbackend : ∀ n, ∃ body, cfg.backend n = AttemptResult.status 401 body)
    (hrefresh : ∀ n st, (refresh_access_token cfg.wA cfg.wR (cfg.renew n) st).1 = true) :
    ∀ (fuel : Nat) (s : LoopSt),
      (requestLoop cfg fuel s).1 = none ∧
      (requestLoop cfg fuel s).2.refreshCalls = s.refreshCalls + fuel := by
  intro fuel
  induction fuel with
  | zero => intro s; simp [requestLoop]
  | succ fuel ih =>
    intro s
    obtain ⟨body, hb⟩ := hbackend s.attempts
    have hstep : requestLoop cfg (fuel + 1) s =
        requestLoop cfg fuel
          { s with attempts := s.attempts + 1,
                   refreshCalls := s.refreshCalls + 1,
                   auth := (refresh_access_token cfg.wA cfg.wR
                     (cfg.renew s.refreshCalls) s.auth).2 } := by
      simp [requestLoop, hb, hoauth, hrefresh]
    rw [hstep]
    refine ⟨(ih _).1, ?_⟩
    rw [(ih _).2]
    simp
    omega

/-- Witness for **C1**: the always-401 backend with an always-succeeding
renew endpoint; after 5 units of fuel the loop has made 5 refresh calls
and produced no result. -/
theorem claim_C1_witness :
    (refresh_access_token true true (RenewResult.ok (some "A2") (some "R2")) sampleAuth).1
        = true ∧
    ((requestLoop
        ⟨false, fun _ => AttemptResult.status 401 none,
          fun _ => RenewResult.ok (some "A2") (some "R2"), true, true, 2, 1⟩
        5 (initSt sampleAuth)).1 = none ∧
      (requestLoop
        ⟨false, fun _ => AttemptResult.status 401 none,
          fun _ => RenewResult.ok (some "A2") (some "R2"), true, true, 2, 1⟩
        5 (initSt sampleAuth)).2.refreshCalls = (initSt sampleAuth).refreshCalls + 5) :=
  ⟨by decide,
    claim_C1
      ⟨false, fun _ => AttemptResult.status 401 none,
        fun _ => RenewResult.ok (some "A2") (some "R2"), true, true, 2, 1⟩
      rfl (fun _ => ⟨none, rfl⟩) (fun _ _ => rfl) 5 (initSt sampleAuth)⟩

/-- **C2**: in non-OAuth mode, when the backend answers 401 on the first
attempt and 2xx with a decodable body on the re-issued attempt, and the
renew endpoint returns a (non-empty) new token pair, the call returns the
decoded body after exactly two attempts and exactly one refresh call, no
backoff sleep occurs, and the auth service afterwards holds exactly the
refreshed pair, both in memory and in the credential store. -/
theorem claim_C2 (A R body : String) (st0 : AuthState) (mr : Nat) (d : ℚ)
    (fuel : Nat) (hA : A ≠ "") (hR : R ≠ "") (hfuel : 2 ≤ fuel) :
    requestLoop
      ⟨false,
        fun n => if n == 0 then AttemptResult.status 401 none
                 else AttemptResult.status 200 (some body),
        fun _ => RenewResult.ok (some A) (some R), true, true, mr, d⟩
      fuel (initSt st0) =
    (some (Except.ok body),
      ⟨0, 2, 1, [], ⟨A, R, ⟨some A, some R, st0.store.server_secret⟩⟩⟩) := by
  obtain ⟨f, rfl⟩ : ∃ f, fuel = f + 2 := ⟨fuel - 2, by omega⟩
  have hcond : (pyTruthy (some A) && pyTruthy (some R)) = true := by
    simp [pyTruthy, hA, hR]
  simp [requestLoop, initSt, refresh_access_token, hcond,
    set_tokens, set_access_token, set_refresh_token]

/-- Witness for **C2** with pair `("A2", "R2")` and body `"b"`. -/
theorem claim_C2_witness :
    requestLoop
      ⟨false,
        fun n => if n == 0 then AttemptResult.status 401 none
                 else AttemptResult.status 200 (some "b"),
        fun _ => RenewResult.ok (some "A2") (some "R2"), true, true, 2, 1⟩
      2 (initSt sampleAuth) =
    (some (Except.ok "b"),
      ⟨0, 2, 1, [], ⟨"A2", "R2", ⟨some "A2", some "R2", some "sec"⟩⟩⟩) :=
  claim_C2 "A2" "R2" "b" sampleAuth 2 1 2 (by decide) (by decide) (by decide)

/-- Invariant of the retry loop against a backend that answers the non-401
error status `c` on the first `mr` attempts and 200 on attempt `mr`: from
a state whose `retries` counter and attempt index both equal `j ≤ mr`,
the loop returns the body after the remaining `mr - j + 1` attempts, the
`k`-th intervening sleep lasting `d * 2 ^ k` seconds for
`k = j, …, mr - 1`. -/
lemma requestLoop_err_then_ok_inv (mr : Nat) (d : ℚ) (body : String) (c : Nat)
    (hc4 : 400 ≤ c) (hc6 : c < 600) (hc401 : c ≠ 401) :
    ∀ (fuel j : Nat) (s : LoopSt), s.retries = j → s.attempts = j →
      j ≤ mr → mr - j < fuel →
      requestLoop
        ⟨false,
          fun n => if n == mr then AttemptResult.status 200 (some body)
                   else AttemptResult.status c none,
          fun _ => RenewResult.httpFailure, true, true, mr, d⟩ fuel s =
      (some (Except.ok body),
        { s with attempts := mr + 1, retries := mr,
                 sleeps := s.sleeps ++ (List.range' j (mr - j)).map (fun k => d * 2 ^ k) }) := by
  intro fuel
  induction fuel with
  | zero => intro j s _ _ _ hf; omega
  | succ fuel ih =>
    intro j s hr ha hj hf
    by_cases hjm : j = mr
    · have hb : (if j == mr then AttemptResult.status 200 (some body)
          else AttemptResult.status c none) = AttemptResult.status 200 (some body) := by
        simp [hjm]
      subst hjm
      simp only [requestLoop, ha, hb]
      simp [← hr, Nat.sub_self]
    · have hlt : j < mr := by omega
      have hb : (if j == mr then AttemptResult.status 200 (some body)
          else AttemptResult.status c none) = AttemptResult.status c none := by
        simp [hjm]
      have hnb : ¬ (s.retries + 1 > mr) := by omega
      have hstep : requestLoop
          ⟨false,
            fun n => if n == mr then AttemptResult.status 200 (some body)
                     else AttemptResult.status c none,
            fun _ => RenewResult.httpFailure, true, true, mr, d⟩ (fuel + 1) s =
          requestLoop
            ⟨false,
              fun n => if n == mr then AttemptResult.status 200 (some body)
                       else AttemptResult.status c none,
              fun _ => RenewResult.httpFailure, true, true, mr, d⟩ fuel
            { s with attempts := s.attempts + 1, retries := s.retries + 1,
                     sleeps := s.sleeps ++ [d * 2 ^ (s.retries + 1 - 1)] } := by
        simp only [requestLoop, ha, hb]
        simp [hnb, hc4, hc6, hc401]
      rw [hstep]
      rw [ih (j + 1) _ (by simp [hr]) (by simp [ha]) (by omega) (by omega)]
      have hrange : List.range' j (mr - j) = j :: List.range' (j + 1) (mr - (j + 1)) := by
        have h1 : mr - j = (mr - (j + 1)) + 1 := by omega
        rw [h1, List.range'_succ]
      simp [hrange, hr]

/-- **C3**: with retry budget `mr` and backoff base `d`, a backend failing
with a non-401 HTTP error status `c` (e.g. 500) on each of the first `mr`
attempts and succeeding on the final one: the call returns the decoded
body on attempt `mr + 1`, and exactly `mr` backoff sleeps occur, the
`k`-th (1-based) lasting `d * 2 ^ (k - 1)` seconds — for the defaults
`mr = 2`, `d = 1` the delays are 1s then 2s. -/
theorem claim_C3 (mr : Nat) (d : ℚ) (body : String) (st0 : AuthState) (c : Nat)
    (hc4 : 400 ≤ c) (hc6 : c < 600) (hc401 : c ≠ 401)
    (fuel : Nat) (hfuel : mr < fuel) :
    requestLoop
      ⟨false,
        fun n => if n == mr then AttemptResult.status 200 (some body)
                 else AttemptResult.status c none,
        fun _ => RenewResult.httpFailure, true, true, mr, d⟩ fuel (initSt st0) =
    (some (Except.ok body),
      ⟨mr, mr + 1, 0, (List.range mr).map (fun k => d * 2 ^ k), st0⟩) := by
  rw [requestLoop_err_then_ok_inv mr d body c hc4 hc6 hc401 fuel 0 (initSt st0)
    rfl rfl (by omega) (by omega)]
  simp [initSt, List.range_eq_range']

/-- Witness for **C3** at the defaults `max_retries = 2`, `retry_delay = 1`:
three attempts, sleeps `1 * 2 ^ 0 = 1`s and `1 * 2 ^ 1 = 2`s. -/
theorem claim_C3_witness :
    requestLoop
      ⟨false,
        fun n => if n == 2 then AttemptResult.status 200 (some "b")
                 else AttemptResult.status 500 none,
        fun _ => RenewResult.httpFailure, true, true, 2, 1⟩ 3 (initSt sampleAuth) =
    (some (Except.ok "b"),
      ⟨2, 3, 0, (List.range 2).map (fun k => (1 : ℚ) * 2 ^ k), sampleAuth⟩) :=
  claim_C3 2 1 "b" sampleAuth 500 (by decide) (by decide) (by decide) 3 (by decide)

/-- Invariant of the retry loop against a backend whose every attempt
fails at the connection level: the budget is spent after `mr - j + 1`
further attempts and the generic try-again-later error is raised. -/
lemma requestLoop_net_inv (mr : Nat) (d : ℚ) (renew : Nat → RenewResult) :
    ∀ (fuel j : Nat) (s : LoopSt), s.retries = j → j ≤ mr → mr - j < fuel →
      requestLoop ⟨false, fun _ => AttemptResult.netError, renew, true, true, mr, d⟩ fuel s =
      (some (Except.error ReqError.tryAgainLater),
        { s with attempts := s.attempts + (mr - j) + 1, retries := mr + 1,
                 sleeps := s.sleeps ++ (List.range' j (mr - j)).map (fun k => d * 2 ^ k) }) := by
  intro fuel
  induction fuel with
  | zero => intro j s _ _ hf; omega
  | succ fuel ih =>
    intro j s hr hj hf
    by_cases hjm : j = mr
    · have hgt : s.retries + 1 > mr := by omega
      simp only [requestLoop]
      simp [hgt, hr, hjm, Nat.sub_self]
    · have hnb : ¬ (s.retries + 1 > mr) := by omega
      have hstep : requestLoop
          ⟨false, fun _ => AttemptResult.netError, renew, true, true, mr, d⟩ (fuel + 1) s =
          requestLoop ⟨false, fun _ => AttemptResult.netError, renew, true, true, mr, d⟩ fuel
            { s with attempts := s.attempts + 1, retries := s.retries + 1,
                     sleeps := s.sleeps ++ [d * 2 ^ (s.retries + 1 - 1)] } := by
        simp only [requestLoop]
        simp [hnb]
      rw [hstep]
      rw [ih (j + 1) _ (by simp [hr]) (by omega) (by omega)]
      have hrange : List.range' j (mr - j) = j :: List.range' (j + 1) (mr - (j + 1)) := by
        have h1 : mr - j = (mr - (j + 1)) + 1 := by omega
        rw [h1, List.range'_succ]
      have hat : s.attempts + 1 + (mr - (j + 1)) + 1 = s.attempts + (mr - j) + 1 := by omega
      simp [hrange, hr, hat]

/-- Invariant of the retry loop against a backend whose every attempt
answers the non-401 error status `c`: the budget is spent after
`mr - j + 1` further attempts and the *raw* HTTP error for status `c` is
re-raised. -/
lemma requestLoop_err_always_inv (mr : Nat) (d : ℚ) (renew : Nat → RenewResult) (c : Nat)
    (hc4 : 400 ≤ c) (hc6 : c < 600) (hc401 : c ≠ 401) :
    ∀ (fuel j : Nat) (s : LoopSt), s.retries = j → j ≤ mr → mr - j < fuel →
      requestLoop
        ⟨false, fun _ => AttemptResult.status c none, renew, true, true, mr, d⟩ fuel s =
      (some (Except.error (ReqError.httpError c)),
        { s with attempts := s.attempts + (mr - j) + 1, retries := mr + 1,
                 sleeps := s.sleeps ++ (List.range' j (mr - j)).map (fun k => d * 2 ^ k) }) := by
  intro fuel
  induction fuel with
  | zero => intro j s _ _ hf; omega
  | succ fuel ih =>
    intro j s hr hj hf
    by_cases hjm : j = mr
    · have hgt : s.retries + 1 > mr := by omega
      simp only [requestLoop]
      simp [hgt, hr, hjm, Nat.sub_self, hc4, hc6, hc401]
    · have hnb : ¬ (s.retries + 1 > mr) := by omega
      have hstep : requestLoop
          ⟨false, fun _ => AttemptResult.status c none, renew, true, true, mr, d⟩
            (fuel + 1) s =
          requestLoop
            ⟨false, fun _ => AttemptResult.status c none, renew, true, true, mr, d⟩ fuel
            { s with attempts := s.attempts + 1, retries := s.retries + 1,
                     sleeps := s.sleeps ++ [d * 2 ^ (s.retries + 1 - 1)] } := by
        simp only [requestLoop]
        simp [hnb, hc4, hc6, hc401]
      rw [hstep]
      rw [ih (j + 1) _ (by simp [hr]) (by omega) (by omega)]
      have hrange : List.range' j (mr - j) = j :: List.range' (j + 1) (mr - (j + 1)) := by
        have h1 : mr - j = (mr - (j + 1)) + 1 := by omega
        rw [h1, List.range'_succ]
      have hat : s.attempts + 1 + (mr - (j + 1)) + 1 = s.attempts + (mr - j) + 1 := by omega
      simp [hrange, hr, hat]

/-- **C4** counterexample: against a backend answering 500 on every
attempt with budget `max_retries = 2`, the call does fail after the
budget is spent, but the surfaced error is the re-raised raw HTTP error
for status 500 (`raise` of the caught `HTTPError`), not the generic
try-again-later condition the claim asserts for all retryable failures. -/
theorem claim_C4_counterexample :
    (requestLoop
      ⟨false, fun _ => AttemptResult.status 500 none, fun _ => RenewResult.httpFailure,
        true, true, 2, 1⟩ 3 (initSt sampleAuth)).1 =
        some (Except.error (ReqError.httpError 500)) ∧
    (requestLoop
      ⟨false, fun _ => AttemptResult.status 500 none, fun _ => RenewResult.httpFailure,
        true, true, 2, 1⟩ 3 (initSt sampleAuth)).1 ≠
        some (Except.error ReqError.tryAgainLater) := by
  decide

/-- **C4** (amended): against a backend whose every attempt fails with a
retryable error, the call fails after exactly `max_retries + 1` attempts;
connection-level failures surface the generic try-again-later error with
the raw exception only logged, while non-401 HTTP-status failures (any
status `c` with `400 ≤ c < 600`, `c ≠ 401`) re-raise the raw HTTP error
(its status code is exposed to the caller). -/
theorem claim_C4 (mr : Nat) (d : ℚ) (st0 : AuthState) (c : Nat)
    (hc4 : 400 ≤ c) (hc6 : c < 600) (hc401 : c ≠ 401)
    (fuel : Nat) (hfuel : mr < fuel) :
    requestLoop
      ⟨false, fun _ => AttemptResult.netError, fun _ => RenewResult.httpFailure,
        true, true, mr, d⟩ fuel (initSt st0) =
      (some (Except.error ReqError.tryAgainLater),
        ⟨mr + 1, mr + 1, 0, (List.range mr).map (fun k => d * 2 ^ k), st0⟩) ∧
    requestLoop
      ⟨false, fun _ => AttemptResult.status c none, fun _ => RenewResult.httpFailure,
        true, true, mr, d⟩ fuel (initSt st0) =
      (some (Except.error (ReqError.httpError c)),
        ⟨mr + 1, mr + 1, 0, (List.range mr).map (fun k => d * 2 ^ k), st0⟩) := by
  constructor
  · rw [requestLoop_net_inv mr d _ fuel 0 (initSt st0) rfl (by omega) (by omega)]
    simp [initSt, List.range_eq_range']
  · rw [requestLoop_err_always_inv mr d _ c hc4 hc6 hc401 fuel 0 (initSt st0)
      rfl (by omega) (by omega)]
    simp [initSt, List.range_eq_range']

/-- Witness for **C4** at the defaults `max_retries = 2`, `retry_delay = 1`:
three attempts in both scenarios. -/
theorem claim_C4_witness :
    requestLoop
      ⟨false, fun _ => AttemptResult.netError, fun _ => RenewResult.httpFailure,
        true, true, 2, 1⟩ 3 (initSt sampleAuth) =
      (some (Except.error ReqError.tryAgainLater),
        ⟨3, 3, 0, (List.range 2).map (fun k => (1 : ℚ) * 2 ^ k), sampleAuth⟩) ∧
    requestLoop
      ⟨false, fun _ => AttemptResult.status 500 none, fun _ => RenewResult.httpFailure,
        true, true, 2, 1⟩ 3 (initSt sampleAuth) =
      (some (Except.error (ReqError.httpError 500)),
        ⟨3, 3, 0, (List.range 2).map (fun k => (1 : ℚ) * 2 ^ k), sampleAuth⟩) :=
  claim_C4 2 1 sampleAuth 500 (by decide) (by decide) (by decide) 3 (by decide)

end CommvaultMCP
